import Mathlib

/-!
Verification of the core of `src/streamlit_app.py` (Student SQL Lab).

Strings are shallow-embedded as lists of Unicode code points (`List Nat`);
the input data handled by the program is ASCII, so the ASCII ranges of the
Python predicates (`str.strip`, `str.lower`, the regex classes used by the
code) are modelled exactly.  Floating-point ratio comparisons against the
literal `0.9` are modelled as the exact rational comparison `9 * total ≤
10 * count`; the two agree on every realistic column length.
-/

/-- Code-point string: the shallow embedding of a Python `str`. -/
abbrev Str := List Nat

/-- Embed a Lean string literal as its list of code points. -/
def str (s : String) : Str := s.toList.map Char.toNat

/-- ASCII whitespace, the characters matched by Python's `str.strip()` and
by the regex class `\s` on the ASCII plane: space, tab, LF, VT, FF, CR. -/
def isSpace (n : Nat) : Bool := n = 32 || n = 9 || n = 10 || n = 11 || n = 12 || n = 13

/-- The regex class `\d` on the ASCII plane: `0`–`9`. -/
def isDigit (n : Nat) : Bool := 48 ≤ n && n ≤ 57

/-- Uppercase ASCII letter `A`–`Z`. -/
def isUpper (n : Nat) : Bool := 65 ≤ n && n ≤ 90

/-- Lowercase ASCII letter `a`–`z`. -/
def isLower (n : Nat) : Bool := 97 ≤ n && n ≤ 122

/-- The regex word class `[A-Za-z0-9_]` used by the source's word
boundaries (`\b`) and by `sanitize_name`'s character class. -/
def isWord (n : Nat) : Bool := isUpper n || isLower n || isDigit n || n = 95

/-- Python `str.lower()` on the ASCII plane: shift `A`–`Z` down by 32. -/
def lower (n : Nat) : Nat := if isUpper n then n + 32 else n

/-- Python `str.lstrip()`: drop leading whitespace. -/
def lstrip (s : Str) : Str := s.dropWhile isSpace

/-- Python `str.rstrip()`: drop trailing whitespace. -/
def rstrip (s : Str) : Str := (s.reverse.dropWhile isSpace).reverse

/-- Python `str.strip()`: drop surrounding whitespace. -/
def strip (s : Str) : Str := rstrip (lstrip s)

/-- Python `str.rstrip(";")`: drop every trailing semicolon (code 59). -/
def rstripSemi (s : Str) : Str := (s.reverse.dropWhile (fun c => c = 59)).reverse

/-- `sql_clean` from the run handler (line 413 of the source):
`sql.strip().rstrip(";").strip()`. -/
def sql_clean (s : Str) : Str := strip (rstripSemi (strip s))

/-- Case-insensitive literal match (`re.IGNORECASE`): if the pattern `k`
(stored lowercase) is a prefix of `s` up to ASCII case, return the rest of
`s`; otherwise `none`. -/
def ciMatch : Str → Str → Option Str
  | [], s => some s
  | _ :: _, [] => none
  | k :: ks, c :: cs => if lower c = k then ciMatch ks cs else none

/-- Match the keyword `k` at the head of `s` followed by a word boundary
(`\b`): end of string or a non-word character. -/
def wordHere (k : Str) (s : Str) : Bool :=
  match ciMatch k s with
  | none => false
  | some [] => true
  | some (c :: _) => !isWord c

/-- Scan of `re.search(r"\bKW\b", s)`: try the keyword at every position
whose preceding character (tracked by `prevWord`) is not a word character. -/
def searchWordGo (k : Str) (prevWord : Bool) : Str → Bool
  | [] => false
  | c :: cs => ((!prevWord) && wordHere k (c :: cs)) || searchWordGo k (isWord c) cs

/-- `re.search(r"\bKW\b", s, re.IGNORECASE)` for a single keyword `k`. -/
def searchWord (k : Str) (s : Str) : Bool := searchWordGo k false s

/-- The blacklist of `is_select_only` (line 355 of the source). -/
def forbiddenKeywords : List Str :=
  [str "insert", str "update", str "delete", str "drop", str "alter", str "create",
   str "replace", str "truncate", str "attach", str "detach", str "vacuum", str "pragma"]

/-- `re.search(r"\b(INSERT|...|PRAGMA)\b", sql, re.IGNORECASE)`. -/
def containsForbidden (s : Str) : Bool := forbiddenKeywords.any (fun k => searchWord k s)

/-- `re.match(r"^\s*(WITH|SELECT)\b", t, re.IGNORECASE)`. -/
def shapeOk (t : Str) : Bool :=
  wordHere (str "with") (t.dropWhile isSpace) || wordHere (str "select") (t.dropWhile isSpace)

/-- `is_select_only` (lines 354–356 of the source): the shape check runs on
`sql.strip()`, the blacklist search on `sql` itself. -/
def is_select_only (sql : Str) : Bool := shapeOk (strip sql) && !containsForbidden sql

/-- Match `LIMIT\s+\d+\b` at the head of `s` (the keyword is reached by the
caller only at a `\b` position). -/
def limitHere (s : Str) : Bool :=
  match ciMatch (str "limit") s with
  | none => false
  | some rest =>
    let sp := rest.takeWhile isSpace
    let r2 := rest.dropWhile isSpace
    let ds := r2.takeWhile isDigit
    let r3 := r2.dropWhile isDigit
    !sp.isEmpty && !ds.isEmpty &&
      (match r3 with
       | [] => true
       | c :: _ => !isWord c)

/-- Position scan for `re.search(r"\bLIMIT\s+\d+\b", s, re.IGNORECASE)`. -/
def searchLimitGo (prevWord : Bool) : Str → Bool
  | [] => false
  | c :: cs => ((!prevWord) && limitHere (c :: cs)) || searchLimitGo (isWord c) cs

/-- `re.search(r"\bLIMIT\s+\d+\b", sql, re.IGNORECASE)`. -/
def containsLimit (s : Str) : Bool := searchLimitGo false s

/-- Decimal representation of the row cap, as the f-string interpolation
`{int(max_rows)}` renders it. -/
def strNat (n : Nat) : Str := str (Nat.repr n)

/-- `enforce_limit` (lines 358–359 of the source). -/
def enforce_limit (sql : Str) (maxRows : Nat) : Str :=
  if containsLimit sql then sql
  else str "SELECT * FROM (" ++ sql ++ str ") AS t LIMIT " ++ strNat maxRows

/-- The single rejection message issued by the run handler (line 415). -/
def rejectionMsg : Str := str "Only SELECT / WITH."

/-- The query gate as wired in the run handler (lines 412–417, with the
Auto LIMIT checkbox at its default `True`): clean, validate with
`is_select_only`, then `enforce_limit`; on failure the handler emits the
one fixed `st.error` message. -/
def validate_and_limit (sql : Str) (maxRows : Nat) : Except Str Str :=
  let c := sql_clean sql
  if is_select_only c then Except.ok (enforce_limit c maxRows) else Except.error rejectionMsg

/-- `os.path.basename`: the part of the path after the last `/` (47). -/
def basename (p : Str) : Str := (p.reverse.takeWhile (fun c => c != 47)).reverse

/-- The root part of `os.path.splitext` applied to a basename: everything
before the last dot (46), except that a basename whose characters before
that dot are all dots (e.g. `.csv`, `..csv`) keeps its full name. -/
def splitextRoot (b : Str) : Str :=
  let r := b.reverse
  let afterDot := r.takeWhile (fun c => c != 46)
  if afterDot.length = r.length then b
  else
    let stem := (r.drop (afterDot.length + 1)).reverse
    if stem.any (fun c => c != 46) then stem else b

/-- The substitution `re.sub(r"[^A-Za-z0-9_]", "_", base)`. -/
def subNonWord (s : Str) : Str := s.map (fun c => if isWord c then c else 95)

/-- Whether `re.match(r"^\d", s)` succeeds: the first character is a digit. -/
def digitHead (s : Str) : Bool :=
  match s with
  | [] => false
  | c :: _ => isDigit c

/-- `sanitize_name` (lines 130–134 of the source): strip the extension off
the basename, replace non-word characters by `_`, prepend `_` on a leading
digit, then lowercase. -/
def sanitize_name (p : Str) : Str :=
  let base := splitextRoot (basename p)
  let base := subNonWord base
  let base := if digitHead base then 95 :: base else base
  base.map lower

/-- Lookup in the override table, modelling `dict.get` on
`TABLE_NAME_MAP` (first matching key wins; dict keys are unique). -/
def lookupStr : List (Str × Str) → Str → Option Str
  | [], _ => none
  | (k, v) :: rest, b => if k = b then some v else lookupStr rest b

/-- The NameResolver as wired in `load_all` (line 211 of the source):
`TABLE_NAME_MAP.get(os.path.basename(f), sanitize_name(f))`. -/
def resolve (f : Str) (overrides : List (Str × Str)) : Str :=
  match lookupStr overrides (basename f) with
  | some v => v
  | none => sanitize_name f

/-- The sanitization pipeline in the order the spec's sentence lists it
(replace, lowercase, then prefix on a leading digit); compared against
`sanitize_name`, which prefixes before lowercasing. -/
def sanitizeSpecOrder (p : Str) : Str :=
  let base := (subNonWord (splitextRoot (basename p))).map lower
  if digitHead base then 95 :: base else base

/-- The two pandas parsers the caster calls per cell, supplied as
parameters: `pd.to_numeric(·, errors="coerce")` idealised over ℚ, and
`pd.to_datetime(·, errors="coerce")` yielding an abstract timestamp.
pandas is an external collaborator of the core (spec §2/§6); the caster's
own logic is taken from the source. -/
structure CastOps where
  toNumeric : Str → Option ℚ
  toDatetime : Str → Option Int

/-- A dataframe column: either already typed (numeric / boolean /
datetime dtype, which `smart_cast_df` skips) or raw text cells. -/
inductive ColVals where
  | ints (vs : List (Option Int))
  | floats (vs : List (Option ℚ))
  | bools (vs : List (Option Bool))
  | temporal (vs : List (Option Int))
  | text (cells : List Str)
deriving DecidableEq

/-- Number of non-null entries of a parsed column (`series.notna().sum()`). -/
def notNaCount {α : Type} (l : List (Option α)) : Nat := (l.filter Option.isSome).length

/-- `_ratio_not_na(l) >= 0.9` (lines 154–155 of the source): 0.0 for an
empty column, else the non-null fraction; the float comparison with `0.9`
is modelled as the exact rational comparison. -/
def ratioGe90 {α : Type} (l : List (Option α)) : Bool :=
  !(l.length = 0) && 9 * l.length ≤ 10 * notNaCount l

/-- The boolean lexicon lookup of `smart_cast_df` (lines 177–180): cells
are stripped and lowercased, then mapped through `bool_map`. -/
def boolLex (cell : Str) : Option Bool :=
  let t := (strip cell).map lower
  if t = str "true" || t = str "t" || t = str "yes" || t = str "y" || t = str "1" then some true
  else if t = str "false" || t = str "f" || t = str "no" || t = str "n" || t = str "0" then some false
  else none

/-- Whether a parsed value is representable as a signed 64-bit integer:
`astype("Int64")` raises for an (integral) value outside this range, and
the source's `except Exception: pass` (lines 171–172) then falls through
to the datetime attempt. -/
def inInt64 (q : ℚ) : Bool := -(2 ^ 63) ≤ q.num && q.num < 2 ^ 63

/-- The datetime / boolean-lexicon / text tail of the per-column chain
(lines 173–183 of the source), reached when the numeric attempt fails the
ratio or when the nullable-integer cast raises. -/
def cast_fallthrough (ops : CastOps) (cells : List Str) : ColVals :=
  let dtTry := cells.map ops.toDatetime
  if ratioGe90 dtTry then
    ColVals.temporal dtTry
  else
    let mapped := cells.map boolLex
    if ratioGe90 mapped then ColVals.bools mapped
    else ColVals.text cells

/-- Per-column body of `smart_cast_df` (lines 157–183 of the source):
skip already-typed columns; else try numeric (integer when every non-null
parse is integral, float otherwise), then datetime, then the boolean
lexicon, each accepted at the 0.90 non-null ratio; otherwise leave the
text cells untouched.  The `try` block around the numeric cast (lines
165–172) matters: `astype("Int64")` raises when an integral value falls
outside the signed 64-bit range, and the `except: pass` then continues
with the datetime attempt; the `astype("float64")` branch and the
`is_integer` scan on the already-parsed floats do not raise. -/
def smart_cast_col (ops : CastOps) : ColVals → ColVals
  | ColVals.ints vs => ColVals.ints vs
  | ColVals.floats vs => ColVals.floats vs
  | ColVals.bools vs => ColVals.bools vs
  | ColVals.temporal vs => ColVals.temporal vs
  | ColVals.text cells =>
    let numTry := cells.map ops.toNumeric
    if ratioGe90 numTry then
      if (numTry.filterMap id).all (fun q => q.den = 1) then
        if (numTry.filterMap id).all inInt64 then
          ColVals.ints (numTry.map (Option.map Rat.num))
        else
          cast_fallthrough ops cells
      else
        ColVals.floats numTry
    else
      cast_fallthrough ops cells

/-- A dataframe: named columns in order. -/
abbrev Df := List (Str × ColVals)

/-- `smart_cast_df` (lines 157–183): the per-column cast applied to every
column of the frame, names and order untouched. -/
def smart_cast_df (ops : CastOps) (df : Df) : Df :=
  df.map (fun nc => (nc.1, smart_cast_col ops nc.2))

/-- Row count of a column. -/
def numRows : ColVals → Nat
  | ColVals.ints vs => vs.length
  | ColVals.floats vs => vs.length
  | ColVals.bools vs => vs.length
  | ColVals.temporal vs => vs.length
  | ColVals.text cells => cells.length

/-- A source file as the loader sees it: its path and the outcome of the
two decoding attempts `pd.read_csv(path)` (which raises
`UnicodeDecodeError` on undecodable bytes) and
`pd.read_csv(path, encoding="utf-8-sig")` (the BOM-tolerant fallback).
The file's bytes and the csv reader are external to the core, so the two
outcomes are the file's attributes. -/
structure SourceFile where
  path : Str
  readDefault : Except Str Df
  readFallback : Except Str Df

/-- `read_csv_any` (lines 148–152 of the source): try the default
decoding; on a decode error retry once with the permissive fallback. -/
def read_csv_any (f : SourceFile) : Except Str Df :=
  match f.readDefault with
  | Except.ok df => Except.ok df
  | Except.error _ => f.readFallback

/-- `df.to_sql(name, conn, if_exists="replace")`: register under the
name, replacing any prior table of that name. -/
def upsert : List (Str × Df) → Str → Df → List (Str × Df)
  | [], k, v => [(k, v)]
  | (k', v') :: rest, k, v => if k' = k then (k, v) :: rest else (k', v') :: upsert rest k v

/-- The per-file loop of `load_all` (lines 210–216 of the source): resolve
the table name, read, cast, register.  The Python loop has no per-file
exception handler, so a read failure propagates out of the whole load;
`Except`'s bind models that propagation. -/
def load_all (ops : CastOps) (overrides : List (Str × Str)) (files : List SourceFile) :
    Except Str (List (Str × Df)) :=
  files.foldlM
    (fun store f =>
      (read_csv_any f).map (fun df => upsert store (resolve f.path overrides) (smart_cast_df ops df)))
    []

/-- Numeric value of a nonempty all-digit string. -/
def digitsVal (s : Str) : Nat := s.foldl (fun a c => 10 * a + (c - 48)) 0

/-- A concrete decimal parser (optional sign, digits, optional fraction)
standing in for `pd.to_numeric` when the claims are instantiated on
concrete columns; the claims themselves hold for every parser. -/
def parseDecimal (s : Str) : Option ℚ :=
  let neg := s.headD 0 = 45
  let t := if neg then s.tail else s
  let ip := t.takeWhile isDigit
  let rest := t.dropWhile isDigit
  if ip.isEmpty then none
  else
    match rest with
    | [] => some (if neg then -(digitsVal ip : ℚ) else (digitsVal ip : ℚ))
    | c :: fp =>
      if c = 46 && !fp.isEmpty && fp.all isDigit then
        let q : ℚ := (digitsVal ip : ℚ) + (digitsVal fp : ℚ) / (10 ^ fp.length : ℚ)
        some (if neg then -q else q)
      else none

theorem lower_eq_self (c : Nat) (h : isUpper c = false) : lower c = c := by
  simp [lower, h]

theorem isUpper_lower (c : Nat) : isUpper (lower c) = false := by
  unfold lower
  split
  next h =>
    have hc : 65 ≤ c ∧ c ≤ 90 := by simpa [isUpper] using h
    simp [isUpper]
    omega
  next h => simpa using h

theorem isDigit_lower (c : Nat) : isDigit (lower c) = isDigit c := by
  unfold lower
  split
  next h =>
    have hc : 65 ≤ c ∧ c ≤ 90 := by simpa [isUpper] using h
    have h1 : isDigit (c + 32) = false := by simp [isDigit]; omega
    have h2 : isDigit c = false := by simp [isDigit]; omega
    rw [h1, h2]
  next => rfl

theorem isWord_lower (c : Nat) : isWord (lower c) = isWord c := by
  unfold lower
  split
  next h =>
    have hc : 65 ≤ c ∧ c ≤ 90 := by simpa [isUpper] using h
    have h1 : isLower (c + 32) = true := by simp [isLower]; omega
    have h2 : isUpper c = true := by simp [isUpper]; omega
    simp [isWord, h1, h2]
  next => rfl

theorem isWord_ne_dot_slash (c : Nat) (h : isWord c = true) : c ≠ 46 ∧ c ≠ 47 := by
  simp [isWord, isUpper, isLower, isDigit] at h
  omega

theorem lower_idem (c : Nat) : lower (lower c) = lower c :=
  lower_eq_self _ (isUpper_lower c)

theorem map_self_of (f : Nat → Nat) : ∀ (l : List Nat), (∀ c ∈ l, f c = c) → l.map f = l
  | [], _ => rfl
  | c :: cs, h => by
    rw [List.map_cons, h c (by simp), map_self_of f cs (fun d hd => h d (by simp [hd]))]

theorem digitHead_map_lower (b : Str) : digitHead (b.map lower) = digitHead b := by
  cases b <;> simp [digitHead, isDigit_lower]

theorem isWord_subNonWord (X : Str) : ∀ d ∈ subNonWord X, isWord d = true := by
  intro d hd
  simp only [subNonWord, List.mem_map] at hd
  obtain ⟨e, _, rfl⟩ := hd
  split
  next h => exact h
  next => rfl

theorem sanitize_eq_specOrder (p : Str) : sanitize_name p = sanitizeSpecOrder p := by
  simp only [sanitize_name, sanitizeSpecOrder]
  generalize subNonWord (splitextRoot (basename p)) = b
  rw [digitHead_map_lower]
  cases hd : digitHead b
  · simp
  · simp [List.map_cons]
    rfl

theorem mem_sanitize (s : Str) : ∀ c ∈ sanitize_name s, isWord c = true ∧ isUpper c = false := by
  intro c hc
  simp only [sanitize_name, List.mem_map] at hc
  obtain ⟨d, hd, rfl⟩ := hc
  refine ⟨?_, isUpper_lower d⟩
  rw [isWord_lower]
  split at hd
  next =>
    rcases List.mem_cons.mp hd with h95 | hmem
    · subst h95; rfl
    · exact isWord_subNonWord _ d hmem
  next => exact isWord_subNonWord _ d hd

theorem digitHead_sanitize (s : Str) : digitHead (sanitize_name s) = false := by
  simp only [sanitize_name]
  generalize subNonWord (splitextRoot (basename s)) = b
  cases hd : digitHead b
  · simp [digitHead_map_lower, hd]
  · simp only [if_pos rfl, List.map_cons]
    rfl

/-- C10: `sanitize_name` is idempotent: its output contains only
characters of `[a-z0-9_]` (so no dot, no separator), and never starts
with a digit, so a second application finds nothing to strip, replace,
prefix or lowercase. -/
theorem C10_sanitize_idempotent (s : Str) :
    sanitize_name (sanitize_name s) = sanitize_name s := by
  have hw : ∀ c ∈ sanitize_name s, isWord c = true := fun c hc => (mem_sanitize s c hc).1
  have hu : ∀ c ∈ sanitize_name s, isUpper c = false := fun c hc => (mem_sanitize s c hc).2
  have hb : basename (sanitize_name s) = sanitize_name s := by
    unfold basename
    rw [List.takeWhile_eq_self_iff.mpr, List.reverse_reverse]
    intro c hc
    rw [List.mem_reverse] at hc
    have := (isWord_ne_dot_slash c (hw c hc)).2
    simpa using this
  have hsp : splitextRoot (sanitize_name s) = sanitize_name s := by
    unfold splitextRoot
    have ht : (sanitize_name s).reverse.takeWhile (fun c => c != 46) = (sanitize_name s).reverse := by
      rw [List.takeWhile_eq_self_iff.mpr]
      intro c hc
      rw [List.mem_reverse] at hc
      have := (isWord_ne_dot_slash c (hw c hc)).1
      simpa using this
    simp [ht]
  have hsub : subNonWord (sanitize_name s) = sanitize_name s :=
    map_self_of _ _ (fun c hc => by simp [hw c hc])
  have hlow : (sanitize_name s).map lower = sanitize_name s :=
    map_self_of _ _ (fun c hc => lower_eq_self c (hu c hc))
  conv_lhs => rw [sanitize_name]
  rw [hb, hsp, hsub, digitHead_sanitize]
  simpa using hlow

/-- C7: the resolver returns the override value verbatim whenever the
basename is a key of the override map, and otherwise strips the
extension, replaces characters outside the word class with an
underscore, lowercases, and prefixes an underscore on a leading digit;
concretely it maps `1abc.csv` to `_1abc` and `My File!.csv` to
`my_file_`. -/
theorem C7_resolver (f : Str) (ov : List (Str × Str)) :
    (∀ v, lookupStr ov (basename f) = some v → resolve f ov = v) ∧
    (lookupStr ov (basename f) = none → resolve f ov = sanitizeSpecOrder f) ∧
    resolve (str "1abc.csv") [] = str "_1abc" ∧
    resolve (str "My File!.csv") [] = str "my_file_" := by
  refine ⟨?_, ?_, rfl, rfl⟩
  · intro v hv
    simp [resolve, hv]
  · intro h
    simp [resolve, h, sanitize_eq_specOrder]

/-- Witness for C7: a mixed-case override value is returned verbatim,
where sanitization alone would have produced `my_file_`. -/
theorem C7_witness :
    resolve (str "My File!.csv") [(str "My File!.csv", str "KeepCase")] = str "KeepCase" :=
  (C7_resolver (str "My File!.csv") [(str "My File!.csv", str "KeepCase")]).1
    (str "KeepCase") rfl

/-- C1 (amended): the gate rejects a statement that does not start with
SELECT or WITH and rejects a statement containing a blacklisted keyword
as a whole word, but both rejections are one and the same outcome — the
single fixed message `Only SELECT / WITH.` — not two distinguishable
error classes. -/
theorem C1_gate_rejections (sql : Str) (n : Nat)
    (h : shapeOk (strip (sql_clean sql)) = false ∨ containsForbidden (sql_clean sql) = true) :
    validate_and_limit sql n = Except.error rejectionMsg := by
  have hsel : is_select_only (sql_clean sql) = false := by
    unfold is_select_only
    rcases h with h | h
    · simp [h]
    · simp [h]
  simp [validate_and_limit, hsel]

/-- Witness for C1: `DROP TABLE x` is rejected (it contains the
blacklisted word DROP). -/
theorem C1_witness :
    validate_and_limit (str "DROP TABLE x") 5000 = Except.error rejectionMsg :=
  C1_gate_rejections (str "DROP TABLE x") 5000 (Or.inr (by decide))

/-- Counterexample for C1: a keyword-only violation (`SELECT DROP`
starts with SELECT but contains DROP) and a shape-only violation
(`EXPLAIN SELECT 1` contains no blacklisted word) are rejected with the
identical outcome — the rejection does not distinguish the two rule
classes, and its message names no keyword rule. -/
theorem C1_counterexample :
    validate_and_limit (str "SELECT DROP") 5000 = validate_and_limit (str "EXPLAIN SELECT 1") 5000 ∧
    validate_and_limit (str "SELECT DROP") 5000 = Except.error (str "Only SELECT / WITH.") := by
  exact ⟨rfl, rfl⟩

/-- C2 (amended): an accepted statement with no LIMIT clause is wrapped
as `SELECT * FROM (<original>) AS t LIMIT <max_rows>` — the sub-query
alias the code emits is `t`. -/
theorem C2_wrap (sql : Str) (n : Nat)
    (hsel : is_select_only (sql_clean sql) = true)
    (hnl : containsLimit (sql_clean sql) = false) :
    validate_and_limit sql n =
      Except.ok (str "SELECT * FROM (" ++ sql_clean sql ++ str ") AS t LIMIT " ++ strNat n) := by
  simp [validate_and_limit, enforce_limit, hsel, hnl]

/-- Witness for C2: `SELECT * FROM t` at cap 5000 produces the wrapped
statement with alias `t`. -/
theorem C2_witness :
    validate_and_limit (str "SELECT * FROM t") 5000 =
      Except.ok (str "SELECT * FROM (SELECT * FROM t) AS t LIMIT 5000") :=
  (C2_wrap (str "SELECT * FROM t") 5000 (by decide) (by decide)).trans rfl

/-- Counterexample for C2: on `SELECT * FROM t` with cap 5000 the gate
emits the alias `t`, not the alias `bounded` the claim states. -/
theorem C2_counterexample :
    validate_and_limit (str "SELECT * FROM t") 5000 =
      Except.ok (str "SELECT * FROM (SELECT * FROM t) AS t LIMIT 5000") ∧
    str "SELECT * FROM (SELECT * FROM t) AS t LIMIT 5000" ≠
      str "SELECT * FROM (SELECT * FROM t) AS bounded LIMIT 5000" := by
  exact ⟨rfl, by decide⟩

/-- C3: when the statement already contains a `LIMIT <integer>` clause
(case-insensitive, word-boundary match), the limit-injection step
returns it unchanged. -/
theorem C3_limit_respected (sql : Str) (n : Nat) (h : containsLimit sql = true) :
    enforce_limit sql n = sql := by
  simp [enforce_limit, h]

/-- Witness for C3: `SELECT * FROM t LIMIT 10` already has a LIMIT
clause and passes through untouched. -/
theorem C3_witness :
    containsLimit (str "SELECT * FROM t LIMIT 10") = true ∧
    enforce_limit (str "SELECT * FROM t LIMIT 10") 5000 = str "SELECT * FROM t LIMIT 10" ∧
    validate_and_limit (str "SELECT * FROM t LIMIT 10") 5000 =
      Except.ok (str "SELECT * FROM t LIMIT 10") :=
  ⟨by decide, C3_limit_respected (str "SELECT * FROM t LIMIT 10") 5000 (by decide), rfl⟩

theorem dropWhile_append_rep {p : Nat → Bool} {a : Nat} (h : p a = false) :
    ∀ (s : Str) (m : Nat),
      List.dropWhile p (s ++ List.replicate (m + 1) a) =
        List.dropWhile p s ++ List.replicate (m + 1) a
  | [], m => by
    simp [List.replicate_succ, List.dropWhile_cons, h]
  | c :: cs, m => by
    rw [List.cons_append, List.dropWhile_cons, List.dropWhile_cons]
    cases hc : p c
    · simp
    · simpa using dropWhile_append_rep h cs m

theorem dropWhile_rep_append {p : Nat → Bool} {a : Nat} (h : p a = true) :
    ∀ (m : Nat) (z : Str),
      List.dropWhile p (List.replicate m a ++ z) = List.dropWhile p z
  | 0, z => by simp
  | m + 1, z => by
    rw [List.replicate_succ, List.cons_append, List.dropWhile_cons, h]
    simp only [if_true]
    exact dropWhile_rep_append h m z

theorem strip_append_rep (s : Str) (m : Nat) :
    strip (s ++ List.replicate (m + 1) 59) = lstrip s ++ List.replicate (m + 1) 59 := by
  unfold strip rstrip lstrip
  rw [dropWhile_append_rep (by decide) s m]
  rw [List.reverse_append, List.reverse_replicate, List.replicate_succ, List.cons_append,
    List.dropWhile_cons]
  simp [isSpace]
  rw [← List.replicate_succ', List.replicate_succ]

theorem rstripSemi_append_rep (x : Str) (m : Nat) :
    rstripSemi (x ++ List.replicate (m + 1) 59) = rstripSemi x := by
  unfold rstripSemi
  rw [List.reverse_append, List.reverse_replicate, dropWhile_rep_append (by decide)]

theorem sql_clean_rep (s : Str) (m : Nat) :
    sql_clean (s ++ List.replicate (m + 1) 59) = strip (rstripSemi (lstrip s)) := by
  unfold sql_clean
  rw [strip_append_rep, rstripSemi_append_rep]

/-- C4 (amended): the clean step trims surrounding whitespace and then
removes the ENTIRE trailing run of semicolons, not a single one: a
statement ending in one extra semicolon cleans to exactly what it cleans
to with one, so none of the extra terminators survives into the later
steps. -/
theorem C4_strip_semis (s : Str) (m : Nat) :
    sql_clean (s ++ List.replicate (m + 1) 59) = sql_clean (s ++ [59]) := by
  rw [sql_clean_rep s m]
  rw [show ([59] : Str) = List.replicate (0 + 1) 59 by rfl]
  rw [sql_clean_rep s 0]

/-- Counterexample for C4: `SELECT 1;;` cleans to `SELECT 1` — both
trailing semicolons are removed, not exactly one; the later steps never
see `SELECT 1;`. -/
theorem C4_counterexample :
    sql_clean (str "SELECT 1;;") = str "SELECT 1" ∧
    sql_clean (str "SELECT 1;;") ≠ str "SELECT 1;" := by
  exact ⟨rfl, by decide⟩

theorem smart_cast_text_int (ops : CastOps) (cells : List Str)
    (h : ratioGe90 (cells.map ops.toNumeric) = true)
    (hint : ((cells.map ops.toNumeric).filterMap id).all (fun q => q.den = 1) = true)
    (hrange : ((cells.map ops.toNumeric).filterMap id).all inInt64 = true) :
    smart_cast_col ops (ColVals.text cells) =
      ColVals.ints ((cells.map ops.toNumeric).map (Option.map Rat.num)) := by
  simp only [smart_cast_col, h, hint, hrange]
  rfl

theorem smart_cast_text_float (ops : CastOps) (cells : List Str)
    (h : ratioGe90 (cells.map ops.toNumeric) = true)
    (hint : ((cells.map ops.toNumeric).filterMap id).all (fun q => q.den = 1) = false) :
    smart_cast_col ops (ColVals.text cells) = ColVals.floats (cells.map ops.toNumeric) := by
  simp only [smart_cast_col, h, hint]
  rfl

theorem smart_cast_fallsThrough (ops : CastOps) (cells : List Str)
    (h : ratioGe90 (cells.map ops.toNumeric) = false ∨
      (((cells.map ops.toNumeric).filterMap id).all (fun q => q.den = 1) = true ∧
       ((cells.map ops.toNumeric).filterMap id).all inInt64 = false)) :
    smart_cast_col ops (ColVals.text cells) = cast_fallthrough ops cells := by
  cases hr : ratioGe90 (cells.map ops.toNumeric)
  · simp only [smart_cast_col, hr]
    rfl
  · rcases h with h | ⟨h1, h2⟩
    · exact Bool.noConfusion (hr.symm.trans h)
    · simp only [smart_cast_col, hr, h1, h2]
      rfl

theorem cast_fallthrough_dt (ops : CastOps) (cells : List Str)
    (h : ratioGe90 (cells.map ops.toDatetime) = true) :
    cast_fallthrough ops cells = ColVals.temporal (cells.map ops.toDatetime) := by
  simp only [cast_fallthrough, h]
  rfl

theorem cast_fallthrough_bool (ops : CastOps) (cells : List Str)
    (h1 : ratioGe90 (cells.map ops.toDatetime) = false)
    (h2 : ratioGe90 (cells.map boolLex) = true) :
    cast_fallthrough ops cells = ColVals.bools (cells.map boolLex) := by
  simp only [cast_fallthrough, h1, h2]
  rfl

theorem cast_fallthrough_text (ops : CastOps) (cells : List Str)
    (h1 : ratioGe90 (cells.map ops.toDatetime) = false)
    (h2 : ratioGe90 (cells.map boolLex) = false) :
    cast_fallthrough ops cells = ColVals.text cells := by
  simp only [cast_fallthrough, h1, h2]
  rfl

theorem smart_cast_text_fallback (ops : CastOps) (cells : List Str)
    (h1 : ratioGe90 (cells.map ops.toNumeric) = false)
    (h2 : ratioGe90 (cells.map ops.toDatetime) = false)
    (h3 : ratioGe90 (cells.map boolLex) = false) :
    smart_cast_col ops (ColVals.text cells) = ColVals.text cells :=
  (smart_cast_fallsThrough ops cells (Or.inl h1)).trans
    (cast_fallthrough_text ops cells h2 h3)

/-- Row count of the datetime / boolean / text tail never changes. -/
theorem numRows_fallthrough (ops : CastOps) (cells : List Str) :
    numRows (cast_fallthrough ops cells) = cells.length := by
  simp only [cast_fallthrough]
  split
  · simp [numRows]
  · split <;> simp [numRows]

/-- Row count of the per-column cast never changes. -/
theorem numRows_cast (ops : CastOps) (c : ColVals) :
    numRows (smart_cast_col ops c) = numRows c := by
  cases c with
  | ints vs => rfl
  | floats vs => rfl
  | bools vs => rfl
  | temporal vs => rfl
  | text cells =>
    simp only [smart_cast_col]
    split
    · split
      · split
        · simp [numRows]
        · exact numRows_fallthrough ops cells
      · simp [numRows]
    · exact numRows_fallthrough ops cells

/-- The two test columns of the spec, embedded as raw string cells. -/
def col9 : List Str :=
  [str "1", str "2", str "x", str "4", str "5", str "6", str "7", str "8", str "9", str "10"]

/-- The 80%-numeric column of the order claim. -/
def col8 : List Str :=
  [str "1", str "2", str "x", str "y", str "5", str "6", str "7", str "8", str "9", str "10"]

/-- A fully numeric, fully integral column whose value exceeds the
signed 64-bit range: the nullable-integer cast raises on it. -/
def bigCol : List Str := [str "12345678901234567890"]

/-- Parsers instantiating the claims on concrete columns: the decimal
parser for the numeric side, and a datetime inference that parses
nothing. -/
def wOps : CastOps := { toNumeric := parseDecimal, toDatetime := fun _ => none }

/-- Parsers with a fully permissive datetime inference (every cell
parses), to exhibit the temporal branch. -/
def wOpsDt : CastOps := { toNumeric := parseDecimal, toDatetime := fun _ => some 0 }

/-- C5 (amended): on a raw string column whose numeric parse reaches the
0.90 non-null ratio, the caster yields kind integer when every non-null
parsed value is integral and fits the signed 64-bit range, and kind
float when some non-null parsed value is non-integral; when all values
are integral but one falls outside that range the nullable-integer cast
raises and the column falls through to the later attempts; cells the
parser rejects are null in the accepted column. -/
theorem C5_numeric_kind (ops : CastOps) (cells : List Str)
    (hratio : ratioGe90 (cells.map ops.toNumeric) = true) :
    ((∀ q ∈ (cells.map ops.toNumeric).filterMap id, q.den = 1) →
      (∀ q ∈ (cells.map ops.toNumeric).filterMap id, -(2 ^ 63) ≤ q.num ∧ q.num < 2 ^ 63) →
      smart_cast_col ops (ColVals.text cells) =
        ColVals.ints ((cells.map ops.toNumeric).map (Option.map Rat.num))) ∧
    ((∃ q ∈ (cells.map ops.toNumeric).filterMap id, q.den ≠ 1) →
      smart_cast_col ops (ColVals.text cells) = ColVals.floats (cells.map ops.toNumeric)) ∧
    ((∀ q ∈ (cells.map ops.toNumeric).filterMap id, q.den = 1) →
      (∃ q ∈ (cells.map ops.toNumeric).filterMap id, ¬ (-(2 ^ 63) ≤ q.num ∧ q.num < 2 ^ 63)) →
      smart_cast_col ops (ColVals.text cells) = cast_fallthrough ops cells) ∧
    (∀ (i : Nat) (c : Str), cells[i]? = some c → ops.toNumeric c = none →
      (cells.map ops.toNumeric)[i]? = some none ∧
      ((cells.map ops.toNumeric).map (Option.map Rat.num))[i]? = some none) := by
  refine ⟨?_, ?_, ?_, ?_⟩
  · intro hall hrange
    have hb : ((cells.map ops.toNumeric).filterMap id).all (fun q => q.den = 1) = true := by
      rw [List.all_eq_true]
      intro q hq
      simpa using hall q hq
    have hr : ((cells.map ops.toNumeric).filterMap id).all inInt64 = true := by
      rw [List.all_eq_true]
      intro q hq
      simp only [inInt64, Bool.and_eq_true, decide_eq_true_eq]
      exact hrange q hq
    exact smart_cast_text_int ops cells hratio hb hr
  · rintro ⟨q, hq, hden⟩
    have hb : ((cells.map ops.toNumeric).filterMap id).all (fun q => q.den = 1) = false := by
      cases hball : ((cells.map ops.toNumeric).filterMap id).all (fun q => q.den = 1)
      · rfl
      · rw [List.all_eq_true] at hball
        exact absurd (by simpa using hball q hq) hden
    exact smart_cast_text_float ops cells hratio hb
  · rintro hall ⟨q, hq, hout⟩
    have hb : ((cells.map ops.toNumeric).filterMap id).all (fun q => q.den = 1) = true := by
      rw [List.all_eq_true]
      intro p hp
      simpa using hall p hp
    have hr : ((cells.map ops.toNumeric).filterMap id).all inInt64 = false := by
      cases hball : ((cells.map ops.toNumeric).filterMap id).all inInt64
      · rfl
      · rw [List.all_eq_true] at hball
        have hx := hball q hq
        simp only [inInt64, Bool.and_eq_true, decide_eq_true_eq] at hx
        exact absurd hx hout
    exact smart_cast_fallsThrough ops cells (Or.inr ⟨hb, hr⟩)
  · intro i c hc hn
    refine ⟨?_, ?_⟩ <;> simp [List.getElem?_map, hc, hn]

/-- Witness for C5: the 90%-numeric column of small integers yields a
nullable-integer column with the unparsable cell null. -/
theorem C5_witness :
    smart_cast_col wOps (ColVals.text col9) =
      ColVals.ints [some 1, some 2, none, some 4, some 5, some 6, some 7, some 8, some 9,
        some 10] :=
  ((C5_numeric_kind wOps col9 (by decide)).1 (by decide) (by decide)).trans rfl

/-- Counterexample for C5: a column that is 100% numeric with every
parsed value integral is NOT assigned kind integer — the value exceeds
the signed 64-bit range, `astype("Int64")` raises, and the column ends
up text. -/
theorem C5_counterexample :
    ratioGe90 (bigCol.map wOps.toNumeric) = true ∧
    (∀ q ∈ (bigCol.map wOps.toNumeric).filterMap id, q.den = 1) ∧
    smart_cast_col wOps (ColVals.text bigCol) = ColVals.text bigCol := by
  exact ⟨by decide, by decide, by decide⟩

/-- C6 (amended): the casting rules run in the fixed order numeric,
temporal, boolean, text.  A column passing the numeric threshold is
integer when all parsed values are integral and 64-bit-representable and
float when some value is non-integral; the temporal attempt runs when
the numeric attempt fails the 0.90 threshold and also when the numeric
attempt passes but the nullable-integer cast raises; the boolean lexicon
is consulted only after the temporal attempt fails, and a column failing
everything stays text. -/
theorem C6_order (ops : CastOps) (cells : List Str) :
    (ratioGe90 (cells.map ops.toNumeric) = true →
      ((cells.map ops.toNumeric).filterMap id).all (fun q => q.den = 1) = true →
      ((cells.map ops.toNumeric).filterMap id).all inInt64 = true →
      smart_cast_col ops (ColVals.text cells) =
        ColVals.ints ((cells.map ops.toNumeric).map (Option.map Rat.num))) ∧
    (ratioGe90 (cells.map ops.toNumeric) = true →
      ((cells.map ops.toNumeric).filterMap id).all (fun q => q.den = 1) = false →
      smart_cast_col ops (ColVals.text cells) = ColVals.floats (cells.map ops.toNumeric)) ∧
    (ratioGe90 (cells.map ops.toNumeric) = false ∨
        (((cells.map ops.toNumeric).filterMap id).all (fun q => q.den = 1) = true ∧
         ((cells.map ops.toNumeric).filterMap id).all inInt64 = false) →
      (ratioGe90 (cells.map ops.toDatetime) = true →
        smart_cast_col ops (ColVals.text cells) = ColVals.temporal (cells.map ops.toDatetime)) ∧
      (ratioGe90 (cells.map ops.toDatetime) = false →
        ratioGe90 (cells.map boolLex) = true →
        smart_cast_col ops (ColVals.text cells) = ColVals.bools (cells.map boolLex)) ∧
      (ratioGe90 (cells.map ops.toDatetime) = false →
        ratioGe90 (cells.map boolLex) = false →
        smart_cast_col ops (ColVals.text cells) = ColVals.text cells)) := by
  refine ⟨smart_cast_text_int ops cells, smart_cast_text_float ops cells, ?_⟩
  intro h
  have hf := smart_cast_fallsThrough ops cells h
  exact ⟨fun hdt => hf.trans (cast_fallthrough_dt ops cells hdt),
    fun hd hb => hf.trans (cast_fallthrough_bool ops cells hd hb),
    fun hd hb => hf.trans (cast_fallthrough_text ops cells hd hb)⟩

/-- Witness for C6: on the 80%-numeric column the numeric attempt fails,
and with a permissive datetime inference the column comes out temporal —
the temporal attempt runs before any boolean or text fallback. -/
theorem C6_witness :
    ratioGe90 (col8.map wOpsDt.toNumeric) = false ∧
    smart_cast_col wOpsDt (ColVals.text col8) =
      ColVals.temporal (List.replicate 10 (some 0)) :=
  ⟨by decide,
   (((C6_order wOpsDt col8).2.2 (Or.inl (by decide))).1 (by decide)).trans rfl⟩

/-- Counterexample for C6: on the out-of-range integral column the
numeric ratio PASSES, yet the temporal attempt still runs and decides
the column — the temporal attempt is not made only after the numeric
attempt fails the 0.90 threshold. -/
theorem C6_counterexample :
    ratioGe90 (bigCol.map wOpsDt.toNumeric) = true ∧
    smart_cast_col wOpsDt (ColVals.text bigCol) = ColVals.temporal [some 0] := by
  exact ⟨by decide, by decide⟩

/-- C9: the casting pass is a per-column map: column names and their
order are unchanged, every column keeps its row count, and a text column
that fails all three attempts is returned with its cells untouched. -/
theorem C9_shape_preserved (ops : CastOps) (df : Df) :
    ((smart_cast_df ops df).map Prod.fst = df.map Prod.fst) ∧
    (∀ i : Nat, ((smart_cast_df ops df)[i]?).map (fun p => numRows p.2) =
          (df[i]?).map (fun p => numRows p.2)) ∧
    (∀ (i : Nat) (nm : Str) (cells : List Str), df[i]? = some (nm, ColVals.text cells) →
      ratioGe90 (cells.map ops.toNumeric) = false →
      ratioGe90 (cells.map ops.toDatetime) = false →
      ratioGe90 (cells.map boolLex) = false →
      (smart_cast_df ops df)[i]? = some (nm, ColVals.text cells)) := by
  refine ⟨?_, ?_, ?_⟩
  · simp [smart_cast_df, List.map_map, Function.comp]
  · intro i
    simp only [smart_cast_df, List.getElem?_map]
    cases df[i]? with
    | none => rfl
    | some p => simp [numRows_cast]
  · intro i nm cells hdf h1 h2 h3
    simp only [smart_cast_df, List.getElem?_map, hdf]
    simp [smart_cast_text_fallback ops cells h1 h2 h3]

/-- A one-column frame whose cells defeat all three casting attempts. -/
def dfW : Df := [(str "a", ColVals.text [str "q", str "w", str "e"])]

/-- Witness for C9: the all-text frame keeps its column name and its
cells verbatim. -/
theorem C9_witness :
    (smart_cast_df wOps dfW).map Prod.fst = dfW.map Prod.fst ∧
    (smart_cast_df wOps dfW)[0]? = some (str "a", ColVals.text [str "q", str "w", str "e"]) :=
  ⟨(C9_shape_preserved wOps dfW).1,
   (C9_shape_preserved wOps dfW).2.2 0 (str "a") [str "q", str "w", str "e"] rfl
     (by decide) (by decide) (by decide)⟩

/-- C8 (amended): a file whose default decoding fails is retried with
the permissive BOM-tolerant fallback; but when the fallback also fails,
the error propagates out of the per-file loop unhandled, aborting the
whole load — the remaining sources are not loaded. -/
theorem C8_decode_failure (ops : CastOps) (ov : List (Str × Str)) (f : SourceFile)
    (rest : List SourceFile) (hdef : ∃ d, f.readDefault = Except.error d) :
    read_csv_any f = f.readFallback ∧
    (∀ e, f.readFallback = Except.error e →
      load_all ops ov (f :: rest) = Except.error e) := by
  obtain ⟨d, hd⟩ := hdef
  constructor
  · rw [read_csv_any, hd]
  · intro e he
    rw [load_all, List.foldlM_cons]
    rw [show read_csv_any f = Except.error e by rw [read_csv_any, hd, he]]
    rfl

/-- A source that fails both decoding attempts. -/
def badFile : SourceFile :=
  { path := str "data/bad.csv"
    readDefault := Except.error (str "decode")
    readFallback := Except.error (str "decode") }

/-- A source that reads fine on the first attempt. -/
def goodFile : SourceFile :=
  { path := str "data/good.csv"
    readDefault := Except.ok [(str "c", ColVals.text [str "1"])]
    readFallback := Except.ok [(str "c", ColVals.text [str "1"])] }

/-- Counterexample for C8: with an undecodable first file followed by a
healthy one, the whole load errors out — no store is produced at all, so
the healthy file is NOT loaded; the failure is not isolated to the bad
file. -/
theorem C8_counterexample :
    load_all wOps [] [badFile, goodFile] = Except.error (str "decode") ∧
    ∀ store : List (Str × Df), load_all wOps [] [badFile, goodFile] ≠ Except.ok store :=
  ⟨rfl, fun _ h => Except.noConfusion ((rfl  : load_all wOps [] [badFile, goodFile] = Except.error (str "decode")).symm.trans h)⟩

/-- Witness for C8: the bad file uses the fallback outcome, and its
double failure aborts a load that still had the healthy file pending. -/
theorem C8_witness :
    read_csv_any badFile = Except.error (str "decode") ∧
    load_all wOps [] [badFile, goodFile, goodFile] = Except.error (str "decode") := by
  have h := C8_decode_failure wOps [] badFile [goodFile, goodFile] ⟨str "decode", rfl⟩
  exact ⟨h.1.trans rfl, h.2 (str "decode") rfl⟩
